import Mathlib

/-! # MidiParser: the header decoder of `src/MidiFile.hpp`

A shallow embedding of `MidiParser::MidiFile` (C++), restricted to what the
source implements: opening a file, `parseHeader`, the empty `parseTrack`,
and the exception plumbing of `MidiFile::Parser`.

Modelling conventions.

* For `Parser`, a file on disk is `Option (List Byte)`: `none` when
  `std::filesystem::exists` is false, `some content` for a regular file that
  `open` opens and whose reads deliver `content` without a device error.
* `Parser.atPath` is the same member function over `PathStatus`, which adds
  the states in which a query of the file system throws
  `std::filesystem::filesystem_error` or `open` fails.
* Unsigned machine integers are `Nat`, reduced modulo `2 ^ w` where the C++
  arithmetic can exceed the width.
* The object representation of an integer is the list of its bytes in
  memory order on a little-endian host (`toBytes` / `ofBytes`).
* `std::ifstream` is the list of bytes not yet extracted, together with its
  state bits.  `Parser` sets `exceptions(failbit | badbit)` before any read,
  so a read that sets `failbit` throws `std::ifstream::failure`.
* A C++ function that may throw returns `Except Thrown _`, paired with the
  stream state it leaves behind.
* Writes to `std::cout` / `std::cerr` are not modelled.
-/

namespace MidiParser

/-- One byte of a file, or of the storage of an object (`char`, `uint8_t`). -/
abbrev Byte := Fin 256

/-- The scoped enumeration `Format`.  Its underlying type is `int`, so a
`static_cast<Format>` of any 16-bit value is a valid `Format` value, also when
no enumerator has that value. -/
structure Format where
  toInt : Int
deriving DecidableEq, Repr

/-- Enumerator `Format::SINGLE_TRACK = 0`. -/
def Format.SINGLE_TRACK : Format := ⟨0⟩

/-- Enumerator `Format::MULTIPLE_TRACK = 1`. -/
def Format.MULTIPLE_TRACK : Format := ⟨1⟩

/-- Enumerator `Format::MULTIPLE_SONG = 2`. -/
def Format.MULTIPLE_SONG : Format := ⟨2⟩

/-- The conversion `static_cast<Format>(v)` of a `uint16_t` value. -/
def Format.ofUInt16 (v : Nat) : Format := ⟨(v : Int)⟩

/-- Class `HeaderChunk`: `format`, `ntracks` (`uint16_t`), `tickdiv` (`uint16_t`). -/
structure HeaderChunk where
  format : Format
  ntracks : Nat
  tickdiv : Nat
deriving DecidableEq, Repr

/-- The throw sites of `MidiFileParserException`, one constructor per message. -/
inductive MidiFileParserException where
  /-- "File does not exist" (`Parser`). -/
  | fileDoesNotExist
  /-- "File is not a MIDI file (No header chunk at start)" (`parseHeader`). -/
  | notAMidiFile
  /-- "This MIDI parser cannot currently parse SMPTE timed MIDI files." (`parseHeader`). -/
  | smpteTiming
  /-- "Conversion error: invalid byte order" (`readAndConvert`). -/
  | invalidByteOrder
  /-- "Could not parse MIDI with reason: " followed by `strerror(errno)` (`handleException`). -/
  | couldNotParse
deriving DecidableEq, Repr

/-- What a C++ expression of this program can throw. -/
inductive Thrown where
  /-- The exception `std::ifstream::failure`, raised by the stream itself. -/
  | failure
  /-- A `MidiFileParserException`. -/
  | parser (e : MidiFileParserException)
deriving DecidableEq, Repr

deriving instance DecidableEq for Except

/-- Class `TrackChunk` (empty in the source). -/
structure TrackChunk where
deriving DecidableEq, Repr

/-- Class `MidiEvent` (empty in the source). -/
structure MidiEvent where
deriving DecidableEq, Repr

/-- The input stream `std::ifstream` with `exceptions(failbit | badbit)` set. -/
structure ifstream where
  is_open : Bool
  buf : List Byte
  eofbit : Bool
  failbit : Bool
deriving DecidableEq, Repr

/-- The test `std::ios::good()`: no state bit is set. -/
def ifstream.good (f : ifstream) : Bool := !f.eofbit && !f.failbit

/-- The call `midi_file.open(filePath, std::ios::binary)` on an existing file with
the given content: the stream is open, positioned at the first byte, state good. -/
def ifstream.openFile (content : List Byte) : ifstream :=
  { is_open := true, buf := content, eofbit := false, failbit := false }

/-- The call `midi_file.close()`. -/
def ifstream.close (f : ifstream) : ifstream := { f with is_open := false, buf := [] }

/-- The call `file.read(s, n)`: extracts `n` bytes.  When the stream is not good, or
fewer than `n` bytes are left, `failbit` is set and the stream throws
`std::ifstream::failure`. -/
def ifstream.read (f : ifstream) (n : Nat) : Except Thrown (List Byte) × ifstream :=
  if !f.good then
    (.error .failure, { f with failbit := true })
  else if n ≤ f.buf.length then
    (.ok (f.buf.take n), { f with buf := f.buf.drop n })
  else
    (.error .failure, { f with buf := [], eofbit := true, failbit := true })

/-- Object representation of an unsigned value of `size` bytes on a little-endian
host: the bytes in memory order, least significant first. -/
def toBytes : Nat → Nat → List Byte
  | 0, _ => []
  | size + 1, value => ⟨value % 256, Nat.mod_lt _ (by decide)⟩ :: toBytes size (value / 256)

/-- The unsigned value whose object representation on a little-endian host is the
given list of bytes. -/
def ofBytes : List Byte → Nat
  | [] => 0
  | b :: bs => b.val + 256 * ofBytes bs

namespace Conversion

/-- The two-byte overload: `static_cast<uint16_t>(first << 8) | static_cast<uint16_t>(second)`. -/
def from_uint8 (first second : Byte) : Nat :=
  (((first.val <<< 8) % 2 ^ 16) ||| (second.val % 2 ^ 16)) % 2 ^ 16

/-- The four-byte overload of `from_uint8`: four rounds of
`uint = (uint << 8) | byte` on a `uint32_t`. -/
def from_uint8x4 (first second third fourth : Byte) : Nat :=
  let uint : Nat := 0
  let uint := (((uint <<< 8) % 2 ^ 32) ||| first.val) % 2 ^ 32
  let uint := (((uint <<< 8) % 2 ^ 32) ||| second.val) % 2 ^ 32
  let uint := (((uint <<< 8) % 2 ^ 32) ||| third.val) % 2 ^ 32
  let uint := (((uint <<< 8) % 2 ^ 32) ||| fourth.val) % 2 ^ 32
  uint

/-- The template `changeEndian<T>` with `sizeof(T) = size`: `std::reverse` over the
bytes of the object. -/
def changeEndian (size : Nat) (value : Nat) : Nat :=
  ofBytes (toBytes size value).reverse

/-- The template `readAndConvert<T>` with `sizeof(T) = size`: read the bytes of the
value, reverse them, then test `file.good()`. -/
def readAndConvert (size : Nat) (file : ifstream) : Except Thrown Nat × ifstream :=
  match file.read size with
  | (.error e, file) => (.error e, file)
  | (.ok bytes, file) =>
    let value := ofBytes bytes
    let value := changeEndian size value
    if !file.good then
      (.error (.parser .invalidByteOrder), file)
    else
      (.ok value, file)

end Conversion

/-- Class `MidiFile`: the event list and the stored header. -/
structure MidiFile where
  events_ : List MidiEvent
  midiHeaderChunk : HeaderChunk
deriving DecidableEq, Repr

namespace MidiFile

/-- Constant `HEADER_START_SIZE`. -/
def HEADER_START_SIZE : Nat := 4

/-- Constant `HEADER_LENGTH_SIZE`. -/
def HEADER_LENGTH_SIZE : Nat := 4

/-- Constant `HEADER_START`, the tag "MThd". -/
def HEADER_START : List Byte := [0x4D, 0x54, 0x68, 0x64]

/-- Constant `TRACK_START`, the tag "MTrk". -/
def TRACK_START : List Byte := [0x4D, 0x54, 0x72, 0x6B]

/-- The state of a `MidiFile` object after its member initialisers have run:
no events, header `HeaderChunk(Format::SINGLE_TRACK, 0, 0)`. -/
def init : MidiFile :=
  { events_ := [], midiHeaderChunk := ⟨Format.SINGLE_TRACK, 0, 0⟩ }

/-- Accessor `event()`. -/
def event (self : MidiFile) : List MidiEvent := self.events_

/-- Accessor `getHeaderChunk()`. -/
def getHeaderChunk (self : MidiFile) : HeaderChunk := self.midiHeaderChunk

/-- Accessor `getFormat()`. -/
def getFormat (self : MidiFile) : Format := self.midiHeaderChunk.format

/-- Accessor `getTrackCount()`. -/
def getTrackCount (self : MidiFile) : Nat := self.midiHeaderChunk.ntracks

/-- Accessor `getTickDiv()`. -/
def getTickDiv (self : MidiFile) : Nat := self.midiHeaderChunk.tickdiv

/-- The static member `handleException`: closes the stream when open, then always
throws `MidiFileParserException` ("Could not parse MIDI with reason: ..."); it has
no `return` statement. -/
def handleException (midi_file : ifstream) : Except MidiFileParserException Bool × ifstream :=
  let midi_file := if midi_file.is_open then midi_file.close else midi_file
  (.error .couldNotParse, midi_file)

/-- The member `parseHeader`.  The tag test is `std::equal` of `header_text` with
`header_text` itself; `header_length` is computed and only printed. -/
def parseHeader (midi_file : ifstream) : Except Thrown HeaderChunk × ifstream :=
  match midi_file.read HEADER_START_SIZE with
  | (.error e, midi_file) => (.error e, midi_file)
  | (.ok header_text, midi_file) =>
    if !(header_text == header_text) then
      (.error (.parser .notAMidiFile), midi_file)
    else
      match midi_file.read HEADER_LENGTH_SIZE with
      | (.error e, midi_file) => (.error e, midi_file)
      | (.ok header_length_buffer, midi_file) =>
        let _header_length := Conversion.from_uint8x4
          (header_length_buffer.getD 0 0) (header_length_buffer.getD 1 0)
          (header_length_buffer.getD 2 0) (header_length_buffer.getD 3 0)
        match Conversion.readAndConvert 2 midi_file with
        | (.error e, midi_file) => (.error e, midi_file)
        | (.ok midi_format, midi_file) =>
          match Conversion.readAndConvert 2 midi_file with
          | (.error e, midi_file) => (.error e, midi_file)
          | (.ok midi_track_num, midi_file) =>
            match Conversion.readAndConvert 2 midi_file with
            | (.error e, midi_file) => (.error e, midi_file)
            | (.ok timing, midi_file) =>
              if timing ≥ 0x8000 then
                (.error (.parser .smpteTiming), midi_file)
              else
                (.ok ⟨Format.ofUInt16 midi_format, midi_track_num, timing⟩, midi_file)

/-- The member `parseTrack`: its body is empty. -/
def parseTrack (self : MidiFile) (midi_file : ifstream) :
    Except Thrown Unit × MidiFile × ifstream :=
  (.ok (), self, midi_file)

/-- How a call of `Parser` ends: it returns a `bool`, or a
`MidiFileParserException` leaves it. -/
inductive Outcome where
  | returned (b : Bool)
  | threw (e : MidiFileParserException)
deriving DecidableEq, Repr

/-- The `try` block of `Parser`: the existence and size test, `open`, the
assignment `midiHeaderChunk = parseHeader(midi_file)`, then `parseTrack`. -/
def Parser.tryBlock (self : MidiFile) (file : Option (List Byte)) :
    Except Thrown Unit × MidiFile × ifstream :=
  let midi_file : ifstream := { is_open := false, buf := [], eofbit := false, failbit := false }
  match file with
  | none => (.error (.parser .fileDoesNotExist), self, midi_file)
  | some content =>
    if content.length = 0 then
      (.error (.parser .fileDoesNotExist), self, midi_file)
    else
      let midi_file := ifstream.openFile content
      match parseHeader midi_file with
      | (.error e, midi_file) => (.error e, self, midi_file)
      | (.ok header, midi_file) =>
        let self := { self with midiHeaderChunk := header }
        parseTrack self midi_file

/-- The member `Parser`: the `try` block and its two handlers.  The handler of
`std::ifstream::failure` calls `handleException`, whose exception is thrown from
inside a handler and so is not caught by the sibling handler; the handler of
`MidiFileParserException` returns `false`. -/
def Parser (self : MidiFile) (file : Option (List Byte)) : Outcome × MidiFile :=
  match Parser.tryBlock self file with
  | (.ok (), self, _) => (.returned true, self)
  | (.error .failure, self, midi_file) =>
    match handleException midi_file with
    | (.ok _, _) => (.returned true, self)
    | (.error e, _) => (.threw e, self)
  | (.error (.parser _), self, _) => (.returned false, self)

/-- The state after a sequence of `Parser` calls on one object, whatever the
outcome of each call. -/
def runParser (self : MidiFile) (files : List (Option (List Byte))) : MidiFile :=
  files.foldl (fun m file => (Parser m file).2) self

end MidiFile

/-- Big-endian 16-bit value at offset `i` of a byte sequence. -/
def be16At (bytes : List Byte) (i : Nat) : Nat :=
  (bytes.getD i 0).val * 256 + (bytes.getD (i + 1) 0).val

/-- Big-endian 32-bit value at offset `i` of a byte sequence. -/
def be32At (bytes : List Byte) (i : Nat) : Nat :=
  (bytes.getD i 0).val * 2 ^ 24 + (bytes.getD (i + 1) 0).val * 2 ^ 16
    + (bytes.getD (i + 2) 0).val * 2 ^ 8 + (bytes.getD (i + 3) 0).val

open MidiFile

/-- What the file system holds at `filePath` when `Parser` is called. -/
inductive PathStatus where
  /-- Nothing is there: `std::filesystem::exists` returns `false`. -/
  | missing
  /-- The status of the path cannot be read, as below a directory without search
  permission: `std::filesystem::exists` throws `std::filesystem::filesystem_error`. -/
  | inaccessible
  /-- A directory: `exists` returns `true` and `std::filesystem::file_size` throws
  `std::filesystem::filesystem_error`. -/
  | directory
  /-- A regular file of `size` bytes that cannot be opened for reading: `open` sets
  `failbit`. -/
  | unreadable (size : Nat)
  /-- A regular file that `open` opens and whose reads deliver `content`. -/
  | readable (content : List Byte)
deriving DecidableEq, Repr

/-- The exception `std::filesystem::filesystem_error`. -/
structure filesystem_error where
deriving DecidableEq, Repr

/-- The call `std::filesystem::exists(filePath)`. -/
def filesystem_exists : PathStatus → Except filesystem_error Bool
  | .missing => .ok false
  | .inaccessible => .error {}
  | .directory => .ok true
  | .unreadable _ => .ok true
  | .readable _ => .ok true

/-- The call `std::filesystem::file_size(filePath)`. -/
def filesystem_file_size : PathStatus → Except filesystem_error Nat
  | .missing => .error {}
  | .inaccessible => .error {}
  | .directory => .error {}
  | .unreadable size => .ok size
  | .readable content => .ok content.length

/-- The call `midi_file.open(filePath, std::ios::binary)` under
`exceptions(failbit | badbit)`: on a file that cannot be opened `failbit` is set and
the stream throws `std::ifstream::failure`. -/
def ifstream.openPath (midi_file : ifstream) : PathStatus → Except Thrown Unit × ifstream
  | .readable content => (.ok (), ifstream.openFile content)
  | _ => (.error .failure, { midi_file with failbit := true })

/-- What the `try` block of `Parser` can throw once the file system is taken into
account. -/
inductive ThrownAtPath where
  /-- A `std::filesystem::filesystem_error` of `exists` or `file_size`. -/
  | filesystem (e : filesystem_error)
  /-- An exception of the stream or a `MidiFileParserException`. -/
  | other (t : Thrown)
deriving DecidableEq, Repr

/-- How a call of `Parser` ends once the file system is taken into account: as an
`Outcome`, or a `std::filesystem::filesystem_error` leaves it. -/
inductive PathOutcome where
  | ended (o : Outcome)
  | threwFilesystemError (e : filesystem_error)
deriving DecidableEq, Repr

/-- The `try` block of `Parser` over the states of the path: the test
`!exists(filePath) || file_size(filePath) == 0` with its two queries in order,
`open`, the assignment `midiHeaderChunk = parseHeader(midi_file)`, then
`parseTrack`. -/
def MidiFile.Parser.atPath.tryBlock (self : MidiFile) (filePath : PathStatus) :
    Except ThrownAtPath Unit × MidiFile × ifstream :=
  let midi_file : ifstream := { is_open := false, buf := [], eofbit := false, failbit := false }
  match filesystem_exists filePath with
  | .error e => (.error (.filesystem e), self, midi_file)
  | .ok found =>
    if !found then
      (.error (.other (.parser .fileDoesNotExist)), self, midi_file)
    else
      match filesystem_file_size filePath with
      | .error e => (.error (.filesystem e), self, midi_file)
      | .ok size =>
        if size = 0 then
          (.error (.other (.parser .fileDoesNotExist)), self, midi_file)
        else
          match midi_file.openPath filePath with
          | (.error e, midi_file) => (.error (.other e), self, midi_file)
          | (.ok (), midi_file) =>
            match parseHeader midi_file with
            | (.error e, midi_file) => (.error (.other e), self, midi_file)
            | (.ok header, midi_file) =>
              let self := { self with midiHeaderChunk := header }
              match parseTrack self midi_file with
              | (.error e, self, midi_file) => (.error (.other e), self, midi_file)
              | (.ok (), self, midi_file) => (.ok (), self, midi_file)

/-- The member `Parser` over the states of the path: the `try` block and its two
handlers.  The handler of `std::ifstream::failure` calls `handleException`, which
throws from inside the handler; the handler of `MidiFileParserException` returns
`false`; no handler catches `std::filesystem::filesystem_error`. -/
def MidiFile.Parser.atPath (self : MidiFile) (filePath : PathStatus) : PathOutcome × MidiFile :=
  match Parser.atPath.tryBlock self filePath with
  | (.ok (), self, _) => (.ended (.returned true), self)
  | (.error (.other .failure), self, midi_file) =>
    match handleException midi_file with
    | (.ok _, _) => (.ended (.returned true), self)
    | (.error e, _) => (.ended (.threw e), self)
  | (.error (.other (.parser _)), self, _) => (.ended (.returned false), self)
  | (.error (.filesystem e), self, _) => (.threwFilesystemError e, self)

/-- The state of the path that a file of `Parser` stands for: missing, or readable
with its content. -/
def PathStatus.ofFile : Option (List Byte) → PathStatus
  | none => .missing
  | some content => .readable content

/-- A format-1 file with two declared tracks and 96 ticks per quarter note; only the
header chunk is present. -/
def sampleHeaderFile : List Byte :=
  [0x4D, 0x54, 0x68, 0x64, 0, 0, 0, 6, 0, 1, 0, 2, 0, 0x60]

/-- A header whose division is `0xE728`: bit 15 set, an SMPTE division. -/
def smpteFile : List Byte :=
  [0x4D, 0x54, 0x68, 0x64, 0, 0, 0, 6, 0, 1, 0, 2, 0xE7, 0x28]

/-- A header whose format field is 3, with one declared track and division 96. -/
def format3File : List Byte :=
  [0x4D, 0x54, 0x68, 0x64, 0, 0, 0, 6, 0, 3, 0, 1, 0, 0x60]

/-- A file whose first four bytes are "RIFF" instead of "MThd", followed by
header fields: length 6, format 0, one track, division 96. -/
def wrongTagFile : List Byte :=
  [0x52, 0x49, 0x46, 0x46, 0, 0, 0, 6, 0, 0, 0, 1, 0, 0x60]

/-- A file cut after its tag and length: "MThd", length 6, nothing else. -/
def truncatedFile : List Byte :=
  [0x4D, 0x54, 0x68, 0x64, 0, 0, 0, 6]

/-- A file of a single byte. -/
def oneByteFile : List Byte := [0x4D]

/-- A header chunk that declares length 0, followed by the six bytes of format 0,
one track, division 96. -/
def zeroLengthFile : List Byte :=
  [0x4D, 0x54, 0x68, 0x64, 0, 0, 0, 0, 0, 0, 0, 1, 0, 0x60]

/-- A complete single-track file: header (format 0, one track, division 96) and
one "MTrk" chunk of four bytes holding the end-of-track event `00 FF 2F 00`. -/
def singleTrackFile : List Byte :=
  [0x4D, 0x54, 0x68, 0x64, 0, 0, 0, 6, 0, 0, 0, 1, 0, 0x60,
   0x4D, 0x54, 0x72, 0x6B, 0, 0, 0, 4, 0x00, 0xFF, 0x2F, 0x00]

/-- The framing of a valid single-track file, after sections 6 and 8 of the
specification: an "MThd" chunk of declared length 6 with format 0, track count 1
and a ticks-per-quarter-note division, followed by exactly one "MTrk" chunk whose
declared length is the number of bytes that follow it.  The event grammar inside
the track payload is not constrained, so every valid single-track file satisfies
this predicate. -/
def validSingleTrackFile (bytes : List Byte) : Prop :=
  bytes.take 4 = HEADER_START ∧ be32At bytes 4 = 6 ∧ be16At bytes 8 = 0 ∧
    be16At bytes 10 = 1 ∧ be16At bytes 12 < 0x8000 ∧
    (bytes.drop 14).take 4 = TRACK_START ∧ 22 ≤ bytes.length ∧
    be32At bytes 18 = bytes.length - 22

instance (bytes : List Byte) : Decidable (validSingleTrackFile bytes) := by
  unfold validSingleTrackFile
  infer_instance

/-- The value of a `char` whose storage holds the byte `b`: the byte itself where
`char` is unsigned, its reading in two-complement where `char` is signed. -/
def charOfByte (charIsSigned : Bool) (b : Byte) : Int :=
  if charIsSigned && decide (128 ≤ b.val) then (b.val : Int) - 256 else (b.val : Int)

/-- The implicit conversion of a `char` argument to a `uint8_t` parameter:
reduction modulo 256. -/
def uint8OfChar (c : Int) : Byte := ⟨(c % 256).toNat, by omega⟩

/-- The local `header_length` of `parseHeader` (lines 213 to 226): the tag is read
and tested, four `char` are read into `header_length_buffer`, and each is converted
to `uint8_t` as an argument of the four-byte `from_uint8`.  The result is `none`
when `parseHeader` has thrown before the value is computed. -/
def MidiFile.parseHeader.header_length (charIsSigned : Bool) (midi_file : ifstream) :
    Option Nat :=
  match midi_file.read HEADER_START_SIZE with
  | (.error _, _) => none
  | (.ok header_text, midi_file) =>
    if !(header_text == header_text) then
      none
    else
      match midi_file.read HEADER_LENGTH_SIZE with
      | (.error _, _) => none
      | (.ok stored, _) =>
        let header_length_buffer : List Int := stored.map (charOfByte charIsSigned)
        some (Conversion.from_uint8x4
          (uint8OfChar (header_length_buffer.getD 0 0))
          (uint8OfChar (header_length_buffer.getD 1 0))
          (uint8OfChar (header_length_buffer.getD 2 0))
          (uint8OfChar (header_length_buffer.getD 3 0)))

/-- The bytes 8..13 of `sampleHeaderFile` behind another tag ("RIFF") and another
declared length (`0x80000001`), followed by three more bytes. -/
def sampleHeaderVariantFile : List Byte :=
  [0x52, 0x49, 0x46, 0x46, 0x80, 0, 0, 1, 0, 1, 0, 2, 0, 0x60, 0xAA, 0xBB, 0xCC]

/-! ## Supporting lemmas -/

/-- A sequence of at least fourteen bytes starts with fourteen bytes. -/
theorem exists_prefix14 (bytes : List Byte) (hlen : 14 ≤ bytes.length) :
    ∃ b0 b1 b2 b3 b4 b5 b6 b7 b8 b9 b10 b11 b12 b13 rest,
      bytes = b0 :: b1 :: b2 :: b3 :: b4 :: b5 :: b6 :: b7 :: b8 :: b9 :: b10 :: b11 ::
        b12 :: b13 :: rest := by
  rcases bytes with _ | ⟨b0, _ | ⟨b1, _ | ⟨b2, _ | ⟨b3, _ | ⟨b4, _ | ⟨b5, _ | ⟨b6, _ | ⟨b7,
    _ | ⟨b8, _ | ⟨b9, _ | ⟨b10, _ | ⟨b11, _ | ⟨b12, _ | ⟨b13, rest⟩⟩⟩⟩⟩⟩⟩⟩⟩⟩⟩⟩⟩⟩ <;>
    first
      | (simp at hlen; done)
      | exact ⟨b0, b1, b2, b3, b4, b5, b6, b7, b8, b9, b10, b11, b12, b13, rest, rfl⟩

/-- Reading two bytes `a, b` into a 16-bit object and reversing its bytes gives the
big-endian value `a * 256 + b`. -/
theorem changeEndian_ofBytes_pair (a b : Byte) :
    Conversion.changeEndian 2 (ofBytes [a, b]) = a.val * 256 + b.val := by
  have ha := a.isLt
  have hb := b.isLt
  simp only [Conversion.changeEndian, ofBytes, toBytes, List.reverse_cons, List.reverse_nil,
    List.nil_append, List.cons_append]
  omega

/-- On a file of at least fourteen bytes `parseHeader` reads all its fields, and
only the division decides between a header and the SMPTE error. -/
theorem parseHeader_cons14 (b0 b1 b2 b3 b4 b5 b6 b7 b8 b9 b10 b11 b12 b13 : Byte)
    (rest : List Byte) :
    parseHeader (ifstream.openFile (b0 :: b1 :: b2 :: b3 :: b4 :: b5 :: b6 :: b7 :: b8 :: b9 ::
        b10 :: b11 :: b12 :: b13 :: rest)) =
      (if 0x8000 ≤ b12.val * 256 + b13.val then .error (.parser .smpteTiming)
        else .ok ⟨Format.ofUInt16 (b8.val * 256 + b9.val), b10.val * 256 + b11.val,
          b12.val * 256 + b13.val⟩,
        { is_open := true, buf := rest, eofbit := false, failbit := false }) := by
  simp [parseHeader, ifstream.openFile, ifstream.read, ifstream.good, Conversion.readAndConvert,
    HEADER_START_SIZE, HEADER_LENGTH_SIZE, changeEndian_ofBytes_pair]
  split <;> simp_all

/-- On a file of fewer than fourteen bytes one of the reads of `parseHeader` finds
too few bytes and the stream throws `std::ifstream::failure`. -/
theorem parseHeader_short (bytes : List Byte) (hlen : bytes.length < 14) :
    (parseHeader (ifstream.openFile bytes)).1 = .error .failure := by
  rcases bytes with _ | ⟨b0, _ | ⟨b1, _ | ⟨b2, _ | ⟨b3, _ | ⟨b4, _ | ⟨b5, _ | ⟨b6, _ | ⟨b7,
    _ | ⟨b8, _ | ⟨b9, _ | ⟨b10, _ | ⟨b11, _ | ⟨b12, _ | ⟨b13, rest⟩⟩⟩⟩⟩⟩⟩⟩⟩⟩⟩⟩⟩⟩ <;>
    first
      | rfl
      | (simp [parseHeader, ifstream.openFile, ifstream.read, ifstream.good,
          Conversion.readAndConvert, HEADER_START_SIZE, HEADER_LENGTH_SIZE]; done)
      | (exfalso; simp only [List.length_cons] at hlen; omega)

/-- The whole of `Parser` on a file of at least fourteen bytes. -/
theorem Parser_of_length_ge (self : MidiFile) (bytes : List Byte) (hlen : 14 ≤ bytes.length) :
    Parser self (some bytes) =
      if 0x8000 ≤ be16At bytes 12 then (.returned false, self)
      else (.returned true, { self with midiHeaderChunk :=
        ⟨Format.ofUInt16 (be16At bytes 8), be16At bytes 10, be16At bytes 12⟩ }) := by
  obtain ⟨b0, b1, b2, b3, b4, b5, b6, b7, b8, b9, b10, b11, b12, b13, rest, rfl⟩ :=
    exists_prefix14 bytes hlen
  simp only [Parser, Parser.tryBlock, parseHeader_cons14, be16At, List.getD_cons_succ,
    List.getD_cons_zero, List.length_cons, parseTrack]
  by_cases hdiv : 0x8000 ≤ b12.val * 256 + b13.val
  · simp [hdiv]
  · simp [hdiv]

/-- The result of `parseHeader` on a file of at least fourteen bytes. -/
theorem parseHeader_of_length_ge (bytes : List Byte) (hlen : 14 ≤ bytes.length) :
    (parseHeader (ifstream.openFile bytes)).1 =
      if 0x8000 ≤ be16At bytes 12 then .error (.parser .smpteTiming)
      else .ok ⟨Format.ofUInt16 (be16At bytes 8), be16At bytes 10, be16At bytes 12⟩ := by
  obtain ⟨b0, b1, b2, b3, b4, b5, b6, b7, b8, b9, b10, b11, b12, b13, rest, rfl⟩ :=
    exists_prefix14 bytes hlen
  simp only [parseHeader_cons14, be16At, List.getD_cons_succ, List.getD_cons_zero]

/-- The whole of `Parser` on a non-empty file of fewer than fourteen bytes: the
stream failure is turned into a `MidiFileParserException` that leaves `Parser`. -/
theorem Parser_of_length_lt (self : MidiFile) (bytes : List Byte) (hpos : 0 < bytes.length)
    (hlen : bytes.length < 14) :
    Parser self (some bytes) = (.threw .couldNotParse, self) := by
  have h := parseHeader_short bytes hlen
  have hne : bytes.length ≠ 0 := by omega
  simp only [Parser, Parser.tryBlock, hne, if_false]
  rcases hp : parseHeader (ifstream.openFile bytes) with ⟨r, f⟩
  rw [hp] at h
  simp only at h
  subst h
  simp [handleException]

/-- The whole of `Parser` on a missing file. -/
theorem Parser_none (self : MidiFile) : Parser self none = (.returned false, self) := rfl

/-- The whole of `Parser` on an empty file. -/
theorem Parser_nil (self : MidiFile) : Parser self (some []) = (.returned false, self) := rfl

/-- The whole of `Parser`, by cases on the file. -/
theorem Parser_eq (self : MidiFile) (file : Option (List Byte)) :
    Parser self file =
      match file with
      | none => (.returned false, self)
      | some bytes =>
        if bytes.length = 0 then (.returned false, self)
        else if bytes.length < 14 then (.threw .couldNotParse, self)
        else if 0x8000 ≤ be16At bytes 12 then (.returned false, self)
        else (.returned true, { self with midiHeaderChunk :=
          ⟨Format.ofUInt16 (be16At bytes 8), be16At bytes 10, be16At bytes 12⟩ }) := by
  cases file with
  | none => rfl
  | some bytes =>
    by_cases h0 : bytes.length = 0
    · have hnil : bytes = [] := List.length_eq_zero.mp h0
      subst hnil
      rfl
    · by_cases h14 : bytes.length < 14
      · simp only [h0, h14, if_true, if_false]
        exact Parser_of_length_lt self bytes (by omega) h14
      · simp only [h0, h14, if_false]
        exact Parser_of_length_ge self bytes (by omega)

/-- A call of `Parser` keeps the stored division below `0x8000`. -/
theorem Parser_keeps_tickdiv (self : MidiFile) (file : Option (List Byte))
    (h : self.getTickDiv < 0x8000) : (Parser self file).2.getTickDiv < 0x8000 := by
  rw [Parser_eq]
  cases file with
  | none => exact h
  | some bytes =>
    simp only
    split_ifs with h0 h14 hdiv
    · exact h
    · exact h
    · exact h
    · simp only [getTickDiv]
      omega

/-- Any sequence of `Parser` calls keeps the stored division below `0x8000`. -/
theorem runParser_keeps_tickdiv (files : List (Option (List Byte))) (self : MidiFile)
    (h : self.getTickDiv < 0x8000) : (runParser self files).getTickDiv < 0x8000 := by
  induction files generalizing self with
  | nil => exact h
  | cons file files ih =>
    simp only [runParser, List.foldl_cons]
    exact ih _ (Parser_keeps_tickdiv self file h)

/-- Shifting left by eight bits and setting the low byte is `x * 256 + b`. -/
theorem shiftLeft8_or_byte (x : Nat) (b : Byte) : (x <<< 8) ||| b.val = x * 256 + b.val := by
  have hb : b.val < 2 ^ 8 := b.isLt
  have h := Nat.mul_add_lt_is_or hb x
  rw [Nat.shiftLeft_eq, Nat.mul_comm x (2 ^ 8), ← h]

/-- The two-byte `from_uint8` is the big-endian value of its arguments. -/
theorem from_uint8_eq (a b : Byte) : Conversion.from_uint8 a b = a.val * 256 + b.val := by
  have ha := a.isLt
  have hb := b.isLt
  have h1 : (a.val <<< 8) % 2 ^ 16 = a.val <<< 8 := by
    rw [Nat.shiftLeft_eq]
    omega
  have h2 : b.val % 2 ^ 16 = b.val := by omega
  rw [Conversion.from_uint8, h1, h2, shiftLeft8_or_byte]
  omega

/-- The four-byte `from_uint8` is the big-endian value of its arguments. -/
theorem from_uint8x4_eq (a b c d : Byte) :
    Conversion.from_uint8x4 a b c d =
      a.val * 2 ^ 24 + b.val * 2 ^ 16 + c.val * 2 ^ 8 + d.val := by
  have ha := a.isLt
  have hb := b.isLt
  have hc := c.isLt
  have hd := d.isLt
  have step : ∀ (x : Nat) (y : Byte), x < 2 ^ 24 →
      (((x <<< 8) % 2 ^ 32) ||| y.val) % 2 ^ 32 = x * 256 + y.val := by
    intro x y hx
    have hy := y.isLt
    have h1 : (x <<< 8) % 2 ^ 32 = x <<< 8 := by
      rw [Nat.shiftLeft_eq]
      omega
    rw [h1, shiftLeft8_or_byte]
    omega
  simp only [Conversion.from_uint8x4]
  rw [step 0 a (by omega), step _ b (by omega), step _ c (by omega), step _ d (by omega)]
  omega

/-- The object representation of a value of `size` bytes has `size` bytes. -/
theorem toBytes_length (size value : Nat) : (toBytes size value).length = size := by
  induction size generalizing value with
  | zero => rfl
  | succ n ih => simp [toBytes, ih]

/-- Storing the bytes of an object and loading its value: the bytes are kept. -/
theorem toBytes_ofBytes (bs : List Byte) : toBytes bs.length (ofBytes bs) = bs := by
  induction bs with
  | nil => rfl
  | cons b bs ih =>
    have hb := b.isLt
    have h1 : (b.val + 256 * ofBytes bs) % 256 = b.val := by omega
    have h2 : (b.val + 256 * ofBytes bs) / 256 = ofBytes bs := by omega
    simp only [List.length_cons, ofBytes, toBytes, h1, h2, ih]

/-- A value that fits in `size` bytes is the value of its object representation. -/
theorem ofBytes_toBytes (size value : Nat) (h : value < 256 ^ size) :
    ofBytes (toBytes size value) = value := by
  induction size generalizing value with
  | zero =>
    simp only [pow_zero, Nat.lt_one_iff] at h
    simp [toBytes, ofBytes, h]
  | succ n ih =>
    have hdiv : value / 256 < 256 ^ n := by
      apply Nat.div_lt_of_lt_mul
      rw [pow_succ] at h
      omega
    simp only [toBytes, ofBytes, ih _ hdiv]
    omega

/-- The value of an object of `n` bytes is below `256 ^ n`. -/
theorem ofBytes_lt (bs : List Byte) : ofBytes bs < 256 ^ bs.length := by
  induction bs with
  | nil => simp [ofBytes]
  | cons b bs ih =>
    have hb := b.isLt
    simp only [ofBytes, List.length_cons, pow_succ]
    omega

/-- Converting the `char` that holds a byte to `uint8_t` gives the byte back, whether
`char` is signed or not. -/
theorem uint8OfChar_charOfByte (charIsSigned : Bool) (b : Byte) :
    uint8OfChar (charOfByte charIsSigned b) = b := by
  have hb := b.isLt
  apply Fin.ext
  simp only [uint8OfChar, charOfByte]
  split <;> omega

/-- Two files of at least fourteen bytes that agree on bytes 8..13 have the same
format, track count and division fields. -/
theorem be16At_eq_of_agree (bytes1 bytes2 : List Byte) (hlen1 : 14 ≤ bytes1.length)
    (hlen2 : 14 ≤ bytes2.length) (hagree : (bytes1.drop 8).take 6 = (bytes2.drop 8).take 6) :
    be16At bytes1 8 = be16At bytes2 8 ∧ be16At bytes1 10 = be16At bytes2 10 ∧
      be16At bytes1 12 = be16At bytes2 12 := by
  obtain ⟨b0, b1, b2, b3, b4, b5, b6, b7, b8, b9, b10, b11, b12, b13, rest1, rfl⟩ :=
    exists_prefix14 bytes1 hlen1
  obtain ⟨c0, c1, c2, c3, c4, c5, c6, c7, c8, c9, c10, c11, c12, c13, rest2, rfl⟩ :=
    exists_prefix14 bytes2 hlen2
  simp only [List.drop_succ_cons, List.drop_zero, List.take_succ_cons, List.take_zero,
    List.cons.injEq, and_true] at hagree
  obtain ⟨h8, h9, h10, h11, h12, h13⟩ := hagree
  subst h8 h9 h10 h11 h12 h13
  simp only [be16At, List.getD_cons_succ, List.getD_cons_zero, and_self]

/-- The tag test of `parseHeader` never throws, whatever the file. -/
theorem parseHeader_never_notAMidiFile (bytes : List Byte) :
    (parseHeader (ifstream.openFile bytes)).1 ≠ .error (.parser .notAMidiFile) := by
  by_cases hlen : bytes.length < 14
  · rw [parseHeader_short bytes hlen]
    decide
  · rw [parseHeader_of_length_ge bytes (by omega)]
    split_ifs <;> simp

/-- How `Parser` ends on a missing file and on a readable file, by cases on the
content. -/
theorem Parser_outcome (self : MidiFile) (file : Option (List Byte)) :
    (Parser self file).1 =
      match file with
      | none => .returned false
      | some bytes =>
        if bytes.length = 0 then .returned false
        else if bytes.length < 14 then .threw .couldNotParse
        else if 0x8000 ≤ be16At bytes 12 then .returned false
        else .returned true := by
  rw [Parser_eq]
  cases file with
  | none => rfl
  | some bytes =>
    simp only
    split_ifs <;> rfl

/-- On a missing file and on a readable file, `Parser.atPath` is `Parser`. -/
theorem Parser_atPath_ofFile (self : MidiFile) (file : Option (List Byte)) :
    Parser.atPath self (PathStatus.ofFile file) =
      (.ended (Parser self file).1, (Parser self file).2) := by
  cases file with
  | none => rfl
  | some content =>
    by_cases h0 : content.length = 0
    · simp [Parser.atPath, Parser.atPath.tryBlock, Parser, Parser.tryBlock, PathStatus.ofFile,
        filesystem_exists, filesystem_file_size, h0]
    · rcases hp : parseHeader (ifstream.openFile content) with ⟨r, f⟩
      cases r with
      | error e =>
        cases e <;>
          simp [Parser.atPath, Parser.atPath.tryBlock, Parser, Parser.tryBlock, PathStatus.ofFile,
            filesystem_exists, filesystem_file_size, ifstream.openPath, handleException, h0, hp]
      | ok header =>
        simp [Parser.atPath, Parser.atPath.tryBlock, Parser, Parser.tryBlock, PathStatus.ofFile,
          filesystem_exists, filesystem_file_size, ifstream.openPath, parseTrack, h0, hp]

/-! ## The claims -/

/-- C1: for every input of at least 14 bytes whose byte 12 is below `0x80` (bit 15 of
the division clear), `parseHeader` returns a header and `Parser` returns `true`, and
the stored header is exactly format `b8 * 256 + b9`, track count `b10 * 256 + b11`
and division `b12 * 256 + b13`; no value of the track count is rejected. -/
theorem Parser_stores_big_endian_header (self : MidiFile) (bytes : List Byte)
    (hlen : 14 ≤ bytes.length) (hdiv : (bytes.getD 12 0).val < 0x80) :
    (parseHeader (ifstream.openFile bytes)).1 =
        .ok ⟨Format.ofUInt16 ((bytes.getD 8 0).val * 256 + (bytes.getD 9 0).val),
          (bytes.getD 10 0).val * 256 + (bytes.getD 11 0).val,
          (bytes.getD 12 0).val * 256 + (bytes.getD 13 0).val⟩ ∧
      (Parser self (some bytes)).1 = .returned true ∧
      (Parser self (some bytes)).2.getFormat.toInt =
        (((bytes.getD 8 0).val * 256 + (bytes.getD 9 0).val : Nat) : Int) ∧
      (Parser self (some bytes)).2.getTrackCount =
        (bytes.getD 10 0).val * 256 + (bytes.getD 11 0).val ∧
      (Parser self (some bytes)).2.getTickDiv =
        (bytes.getD 12 0).val * 256 + (bytes.getD 13 0).val := by
  have h13 := (bytes.getD 13 0).isLt
  have hnot : ¬ 0x8000 ≤ be16At bytes 12 := by
    simp only [be16At]
    omega
  rw [parseHeader_of_length_ge bytes hlen, Parser_of_length_ge self bytes hlen,
    if_neg hnot, if_neg hnot]
  exact ⟨rfl, rfl, rfl, rfl, rfl⟩

/-- Witness of C1 on a format-1 header with two tracks and division 96. -/
theorem Parser_stores_big_endian_header_witness :
    14 ≤ sampleHeaderFile.length ∧ (sampleHeaderFile.getD 12 0).val < 0x80 ∧
      (Parser init (some sampleHeaderFile)).1 = .returned true ∧
      (Parser init (some sampleHeaderFile)).2.getFormat.toInt = 1 ∧
      (Parser init (some sampleHeaderFile)).2.getTrackCount = 2 ∧
      (Parser init (some sampleHeaderFile)).2.getTickDiv = 96 :=
  have h := Parser_stores_big_endian_header init sampleHeaderFile (by decide) (by decide)
  ⟨by decide, by decide, h.2.1, h.2.2.1, h.2.2.2.1, h.2.2.2.2⟩

/-- C2: for every input of at least 14 bytes whose division (big-endian value of
bytes 12..13) is at least `0x8000`, `parseHeader` throws the SMPTE exception and
`Parser` returns `false`, leaving the object as it was. -/
theorem Parser_rejects_smpte (self : MidiFile) (bytes : List Byte)
    (hlen : 14 ≤ bytes.length) (hdiv : 0x8000 ≤ be16At bytes 12) :
    (parseHeader (ifstream.openFile bytes)).1 = .error (.parser .smpteTiming) ∧
      Parser self (some bytes) = (.returned false, self) := by
  rw [parseHeader_of_length_ge bytes hlen, Parser_of_length_ge self bytes hlen,
    if_pos hdiv, if_pos hdiv]
  exact ⟨rfl, rfl⟩

/-- Witness of C2 on a header with division `0xE728`. -/
theorem Parser_rejects_smpte_witness :
    14 ≤ smpteFile.length ∧ 0x8000 ≤ be16At smpteFile 12 ∧
      (parseHeader (ifstream.openFile smpteFile)).1 = .error (.parser .smpteTiming) ∧
      Parser init (some smpteFile) = (.returned false, init) :=
  have h := Parser_rejects_smpte init smpteFile (by decide) (by decide)
  ⟨by decide, by decide, h.1, h.2⟩

/-- C3, counterexample: a header with format field 3 is not rejected: `parseHeader`
returns a header carrying format 3 and `Parser` returns `true`. -/
theorem format3_accepted :
    be16At format3File 8 = 3 ∧
      (parseHeader (ifstream.openFile format3File)).1 = .ok ⟨⟨3⟩, 1, 96⟩ ∧
      (Parser init (some format3File)).1 = .returned true ∧
      (Parser init (some format3File)).2.getFormat ≠ Format.SINGLE_TRACK ∧
      (Parser init (some format3File)).2.getFormat ≠ Format.MULTIPLE_TRACK ∧
      (Parser init (some format3File)).2.getFormat ≠ Format.MULTIPLE_SONG := by
  decide

/-- C3, amended: the format field is not validated.  For every input of at least 14
bytes, whatever its format field, `parseHeader` fails only when the division has bit
15 set, with the SMPTE exception; otherwise it returns a header whose format is the
raw big-endian value of bytes 8..9, inside `{0, 1, 2}` or not, and `Parser` returns
`true`. -/
theorem parseHeader_format_unchecked (self : MidiFile) (bytes : List Byte)
    (hlen : 14 ≤ bytes.length) :
    ((parseHeader (ifstream.openFile bytes)).1 =
        if 0x8000 ≤ be16At bytes 12 then .error (.parser .smpteTiming)
        else .ok ⟨Format.ofUInt16 (be16At bytes 8), be16At bytes 10, be16At bytes 12⟩) ∧
      ((Parser self (some bytes)).1 = .returned true ↔ be16At bytes 12 < 0x8000) ∧
      (be16At bytes 12 < 0x8000 →
        (Parser self (some bytes)).2.getFormat.toInt = (be16At bytes 8 : Int)) := by
  rw [parseHeader_of_length_ge bytes hlen, Parser_of_length_ge self bytes hlen]
  refine ⟨rfl, ?_, ?_⟩
  · by_cases hdiv : 0x8000 ≤ be16At bytes 12
    · rw [if_pos hdiv]
      constructor
      · intro h
        cases h
      · intro h
        omega
    · rw [if_neg hdiv]
      constructor
      · intro _
        omega
      · intro _
        rfl
  · intro h
    have hdiv : ¬ 0x8000 ≤ be16At bytes 12 := by omega
    rw [if_neg hdiv]
    rfl

/-- Witness of C3, amended, on the header with format field 3. -/
theorem parseHeader_format_unchecked_witness :
    14 ≤ format3File.length ∧ be16At format3File 12 < 0x8000 ∧
      (Parser init (some format3File)).2.getFormat.toInt = (be16At format3File 8 : Int) :=
  ⟨by decide, by decide,
    (parseHeader_format_unchecked init format3File (by decide)).2.2 (by decide)⟩

/-- C4, the code at the failing input: a file that starts with "RIFF" instead of
"MThd" passes the tag test of `parseHeader`, which compares `header_text` with
itself; `Parser` returns `true` and stores the header read from bytes 8..13. -/
theorem wrong_tag_accepted :
    wrongTagFile.take 4 ≠ HEADER_START ∧
      (parseHeader (ifstream.openFile wrongTagFile)).1 = .ok ⟨Format.SINGLE_TRACK, 1, 96⟩ ∧
      Parser init (some wrongTagFile) =
        (.returned true, { events_ := [], midiHeaderChunk := ⟨Format.SINGLE_TRACK, 1, 96⟩ }) := by
  decide

/-- C5: for every input shorter than 14 bytes, the empty one included, `Parser` does
not return `true` and the object, its stored header included, is left as it was:
`Parser` returns `false` on the empty file, and on a non-empty one a read of
`parseHeader` finds too few bytes, so that the stream failure leaves `Parser` as a
`MidiFileParserException`. -/
theorem Parser_short_input_fails (self : MidiFile) (bytes : List Byte)
    (hlen : bytes.length < 14) :
    (Parser self (some bytes)).1 ≠ .returned true ∧
      (Parser self (some bytes)).2 = self ∧
      (parseHeader (ifstream.openFile bytes)).1 = .error .failure ∧
      (Parser self (some bytes)).1 =
        if bytes.length = 0 then .returned false else .threw .couldNotParse := by
  refine ⟨?_, ?_, parseHeader_short bytes hlen, ?_⟩ <;>
    · rw [Parser_eq]
      simp only [hlen, if_true]
      split_ifs <;> simp

/-- Witness of C5 on a file cut after the tag and the length of its header chunk. -/
theorem Parser_short_input_fails_witness :
    truncatedFile.length < 14 ∧
      (Parser init (some truncatedFile)).1 ≠ .returned true ∧
      (Parser init (some truncatedFile)).2 = init :=
  have h := Parser_short_input_fails init truncatedFile (by decide)
  ⟨by decide, h.1, h.2.1⟩

/-- C6, counterexample: on a file of one byte `Parser` does not return a boolean: the
`MidiFileParserException` thrown by `handleException` leaves it. -/
theorem Parser_throws_on_one_byte :
    (Parser init (some oneByteFile)).1 = .threw .couldNotParse ∧
      (Parser init (some oneByteFile)).1 ≠ .returned false ∧
      (Parser init (some oneByteFile)).1 ≠ .returned true := by
  decide

/-- C6, amended: how `Parser` ends in each state of the path.  It returns `false`
on a missing file, on an empty file and on a readable header with an SMPTE division,
and `true` on any other readable file of at least 14 bytes.  It does not return in
three cases.  On a readable non-empty file of fewer than 14 bytes, and on a non-empty
file that `open` cannot open, the stream failure is handled by `handleException`,
whose `MidiFileParserException` leaves `Parser`.  When `exists` or `file_size` throws
`std::filesystem::filesystem_error`, as on a directory, no handler catches it. -/
theorem Parser_atPath_outcome (self : MidiFile) (filePath : PathStatus) :
    (Parser.atPath self filePath).1 =
      match filePath with
      | .missing => .ended (.returned false)
      | .inaccessible => .threwFilesystemError {}
      | .directory => .threwFilesystemError {}
      | .unreadable size =>
        if size = 0 then .ended (.returned false) else .ended (.threw .couldNotParse)
      | .readable content =>
        if content.length = 0 then .ended (.returned false)
        else if content.length < 14 then .ended (.threw .couldNotParse)
        else if 0x8000 ≤ be16At content 12 then .ended (.returned false)
        else .ended (.returned true) := by
  cases filePath with
  | missing => rfl
  | inaccessible => rfl
  | directory => rfl
  | unreadable size =>
    by_cases h0 : size = 0
    · simp [Parser.atPath, Parser.atPath.tryBlock, filesystem_exists, filesystem_file_size, h0]
    · simp [Parser.atPath, Parser.atPath.tryBlock, filesystem_exists, filesystem_file_size,
        ifstream.openPath, handleException, h0]
  | readable content =>
    have h := Parser_atPath_ofFile self (some content)
    simp only [PathStatus.ofFile] at h
    rw [h, Parser_outcome]
    simp only
    split_ifs <;> rfl

/-- C7: whenever `Parser` does not return `true` (it returns `false`, or an exception
leaves it), the stored header is what it was before the call; on a freshly
initialised object it is therefore still `(SINGLE_TRACK, 0, 0)`. -/
theorem Parser_failure_keeps_header (self : MidiFile) (file : Option (List Byte))
    (hfail : (Parser self file).1 ≠ .returned true) :
    (Parser self file).2.getHeaderChunk = self.getHeaderChunk ∧
      (Parser self file).2 = self ∧
      (self = init →
        (Parser self file).2.getHeaderChunk = ⟨Format.SINGLE_TRACK, 0, 0⟩) := by
  have hself : (Parser self file).2 = self := by
    rw [Parser_eq] at hfail ⊢
    cases file with
    | none => rfl
    | some bytes =>
      simp only at hfail ⊢
      split_ifs at hfail ⊢ <;> first | rfl | exact absurd rfl hfail
  refine ⟨by rw [hself], hself, ?_⟩
  intro hinit
  rw [hself, hinit]
  rfl

/-- Witness of C7 on a first parse of a header with an SMPTE division. -/
theorem Parser_failure_keeps_header_witness :
    (Parser init (some smpteFile)).1 ≠ .returned true ∧
      (Parser init (some smpteFile)).2.getHeaderChunk = ⟨Format.SINGLE_TRACK, 0, 0⟩ :=
  ⟨by decide,
    (Parser_failure_keeps_header init (some smpteFile) (by decide)).2.2 rfl⟩

/-- C8, counterexample: a header chunk that declares length 0 is not rejected:
`Parser` returns `true` and stores the header read from bytes 8..13. -/
theorem zero_length_accepted :
    be32At zeroLengthFile 4 = 0 ∧
      (parseHeader (ifstream.openFile zeroLengthFile)).1 = .ok ⟨Format.SINGLE_TRACK, 1, 96⟩ ∧
      Parser init (some zeroLengthFile) =
        (.returned true, { events_ := [], midiHeaderChunk := ⟨Format.SINGLE_TRACK, 1, 96⟩ }) := by
  decide

/-- C8, amended: the declared length of the header chunk (bytes 4..7) is read and
ignored: `Parser` ends the same way and stores the same header for every value of
these four bytes.  What is required is that at least 6 bytes are present after the
8 bytes of tag and length: `Parser` returns `true` exactly when they are and the
division, bytes 4..5 of the payload, has bit 15 clear. -/
theorem Parser_ignores_declared_length (self : MidiFile)
    (t0 t1 t2 t3 l0 l1 l2 l3 m0 m1 m2 m3 : Byte) (payload : List Byte) :
    Parser self (some (t0 :: t1 :: t2 :: t3 :: l0 :: l1 :: l2 :: l3 :: payload)) =
        Parser self (some (t0 :: t1 :: t2 :: t3 :: m0 :: m1 :: m2 :: m3 :: payload)) ∧
      ((Parser self (some (t0 :: t1 :: t2 :: t3 :: l0 :: l1 :: l2 :: l3 :: payload))).1 =
          .returned true ↔
        6 ≤ payload.length ∧ be16At payload 4 < 0x8000) := by
  have hbe : ∀ (a b c d e f g h : Byte) (i : Nat),
      be16At (a :: b :: c :: d :: e :: f :: g :: h :: payload) (i + 8) = be16At payload i := by
    intro a b c d e f g h i
    simp [be16At, List.getD_cons_succ]
  constructor
  · rw [Parser_eq, Parser_eq]
    simp only [List.length_cons, hbe _ _ _ _ _ _ _ _ 0, hbe _ _ _ _ _ _ _ _ 2,
      hbe _ _ _ _ _ _ _ _ 4]
  · by_cases h6 : 6 ≤ payload.length
    · rw [Parser_of_length_ge self _ (by simp only [List.length_cons]; omega),
        hbe _ _ _ _ _ _ _ _ 4]
      by_cases hdiv : 0x8000 ≤ be16At payload 4
      · rw [if_pos hdiv]
        constructor
        · intro h
          cases h
        · intro h
          omega
      · rw [if_neg hdiv]
        constructor
        · intro _
          exact ⟨h6, by omega⟩
        · intro _
          rfl
    · rw [Parser_of_length_lt self _ (by simp only [List.length_cons]; omega)
        (by simp only [List.length_cons]; omega)]
      constructor
      · intro h
        cases h
      · intro h
        omega

/-- C9, counterexample: on a valid single-track file `Parser` returns `true` and the
stored track count is 1, but no track is decoded: the event list stays empty. -/
theorem single_track_not_decoded :
    validSingleTrackFile singleTrackFile ∧
      (Parser init (some singleTrackFile)).1 = .returned true ∧
      (Parser init (some singleTrackFile)).2.getTrackCount = 1 ∧
      (Parser init (some singleTrackFile)).2.event = [] ∧
      (Parser init (some singleTrackFile)).2.event.length ≠ 1 := by
  decide

/-- C9, amended: for every valid single-track file `Parser` returns `true` and stores
a header with format `SINGLE_TRACK` and track count 1; `parseTrack` is empty, so no
track is decoded and the event list is left as it was. -/
theorem Parser_single_track_header (self : MidiFile) (bytes : List Byte)
    (hvalid : validSingleTrackFile bytes) :
    (Parser self (some bytes)).1 = .returned true ∧
      (Parser self (some bytes)).2.getTrackCount = 1 ∧
      (Parser self (some bytes)).2.getFormat = Format.SINGLE_TRACK ∧
      (Parser self (some bytes)).2.event = self.event := by
  obtain ⟨_, _, hfmt, hn, hdiv, _, hlen, _⟩ := hvalid
  have hnot : ¬ 0x8000 ≤ be16At bytes 12 := by omega
  rw [Parser_of_length_ge self bytes (by omega), if_neg hnot]
  simp [getTrackCount, getFormat, event, hfmt, hn, Format.ofUInt16, Format.SINGLE_TRACK]

/-- Witness of C9, amended, on a file with one "MTrk" chunk holding end-of-track. -/
theorem Parser_single_track_header_witness :
    validSingleTrackFile singleTrackFile ∧
      (Parser init (some singleTrackFile)).1 = .returned true ∧
      (Parser init (some singleTrackFile)).2.getTrackCount = 1 ∧
      (Parser init (some singleTrackFile)).2.event = init.event :=
  have h := Parser_single_track_header init singleTrackFile (by decide)
  ⟨by decide, h.1, h.2.1, h.2.2.2⟩

/-- C10: after any sequence of `Parser` calls on a freshly initialised object,
whatever the files and however each call ends, the stored division satisfies
`getTickDiv() < 0x8000`. -/
theorem tickdiv_invariant (files : List (Option (List Byte))) :
    (runParser init files).getTickDiv < 0x8000 :=
  runParser_keeps_tickdiv files init (by decide)

/-- C11: on a good stream whose next two bytes are `a, b`, `readAndConvert<uint16_t>`
(the two bytes stored in a 16-bit object on a little-endian host, then
`changeEndian`) returns the value of `from_uint8(a, b)`, which is `a * 256 + b`, and
leaves the stream two bytes further, otherwise unchanged. -/
theorem readAndConvert_refines_from_uint8 (a b : Byte) (rest : List Byte) (file : ifstream)
    (hgood : file.good = true) (hbuf : file.buf = a :: b :: rest) :
    Conversion.readAndConvert 2 file =
        (.ok (Conversion.from_uint8 a b), { file with buf := rest }) ∧
      ofBytes [a, b] = a.val + 256 * b.val ∧
      Conversion.changeEndian 2 (ofBytes [a, b]) = Conversion.from_uint8 a b ∧
      Conversion.from_uint8 a b = a.val * 256 + b.val := by
  obtain ⟨o, buf, e, fl⟩ := file
  simp only [ifstream.good, Bool.and_eq_true, Bool.not_eq_true'] at hgood
  obtain ⟨he, hfl⟩ := hgood
  simp only at hbuf he hfl
  subst hbuf he hfl
  refine ⟨?_, ?_, ?_, from_uint8_eq a b⟩
  · simp [Conversion.readAndConvert, ifstream.read, ifstream.good, changeEndian_ofBytes_pair,
      from_uint8_eq]
  · simp [ofBytes]
  · rw [changeEndian_ofBytes_pair, from_uint8_eq]

/-- Witness of C11 on the stream of `sampleHeaderFile` after its first ten bytes:
the next two bytes are `00 02`. -/
theorem readAndConvert_refines_from_uint8_witness :
    Conversion.readAndConvert 2 (ifstream.openFile [0x00, 0x02, 0x00, 0x60]) =
        (.ok (Conversion.from_uint8 0x00 0x02),
          { ifstream.openFile [0x00, 0x02, 0x00, 0x60] with buf := [0x00, 0x60] }) ∧
      Conversion.from_uint8 0x00 0x02 = 2 :=
  have h := readAndConvert_refines_from_uint8 0x00 0x02 [0x00, 0x60]
    (ifstream.openFile [0x00, 0x02, 0x00, 0x60]) rfl rfl
  ⟨h.1, h.2.2.2⟩

/-- C12: two inputs of at least 14 bytes that agree on bytes 8..13 give the same
result of `parseHeader` (the same header or the same exception) and the same result
of `Parser`, whatever their first 8 bytes and the bytes after offset 13; and on no
input does `parseHeader` throw the exception of the tag test. -/
theorem parseHeader_ignores_tag_and_length (self : MidiFile) (bytes1 bytes2 : List Byte)
    (hlen1 : 14 ≤ bytes1.length) (hlen2 : 14 ≤ bytes2.length)
    (hagree : (bytes1.drop 8).take 6 = (bytes2.drop 8).take 6) :
    (parseHeader (ifstream.openFile bytes1)).1 = (parseHeader (ifstream.openFile bytes2)).1 ∧
      Parser self (some bytes1) = Parser self (some bytes2) ∧
      (∀ bytes : List Byte,
        (parseHeader (ifstream.openFile bytes)).1 ≠ .error (.parser .notAMidiFile)) := by
  obtain ⟨h8, h10, h12⟩ := be16At_eq_of_agree bytes1 bytes2 hlen1 hlen2 hagree
  refine ⟨?_, ?_, parseHeader_never_notAMidiFile⟩
  · rw [parseHeader_of_length_ge bytes1 hlen1, parseHeader_of_length_ge bytes2 hlen2,
      h8, h10, h12]
  · rw [Parser_of_length_ge self bytes1 hlen1, Parser_of_length_ge self bytes2 hlen2,
      h8, h10, h12]

/-- Witness of C12 on a header and on the same fields behind the tag "RIFF", the
declared length `0x80000001` and three trailing bytes. -/
theorem parseHeader_ignores_tag_and_length_witness :
    sampleHeaderFile.take 8 ≠ sampleHeaderVariantFile.take 8 ∧
      sampleHeaderFile.drop 14 ≠ sampleHeaderVariantFile.drop 14 ∧
      (parseHeader (ifstream.openFile sampleHeaderFile)).1 =
        (parseHeader (ifstream.openFile sampleHeaderVariantFile)).1 ∧
      Parser init (some sampleHeaderFile) = Parser init (some sampleHeaderVariantFile) :=
  have h := parseHeader_ignores_tag_and_length init sampleHeaderFile sampleHeaderVariantFile
    (by decide) (by decide) (by decide)
  ⟨by decide, by decide, h.1, h.2.1⟩

/-- C13: for all bytes `a, b, c, d` the four-byte `from_uint8` returns exactly
`a * 2 ^ 24 + b * 2 ^ 16 + c * 2 ^ 8 + d`, a value below `2 ^ 32` that the reductions
modulo `2 ^ 32` leave untouched; and it is the value of `header_length` in
`parseHeader` for the bytes 4..7 of the file, also when they are `0x80` or more and
`char` is signed. -/
theorem from_uint8x4_big_endian (charIsSigned : Bool) (a b c d t0 t1 t2 t3 : Byte)
    (rest : List Byte) :
    Conversion.from_uint8x4 a b c d =
        a.val * 2 ^ 24 + b.val * 2 ^ 16 + c.val * 2 ^ 8 + d.val ∧
      Conversion.from_uint8x4 a b c d < 2 ^ 32 ∧
      parseHeader.header_length charIsSigned
          (ifstream.openFile (t0 :: t1 :: t2 :: t3 :: a :: b :: c :: d :: rest)) =
        some (a.val * 2 ^ 24 + b.val * 2 ^ 16 + c.val * 2 ^ 8 + d.val) ∧
      be32At (t0 :: t1 :: t2 :: t3 :: a :: b :: c :: d :: rest) 4 =
        a.val * 2 ^ 24 + b.val * 2 ^ 16 + c.val * 2 ^ 8 + d.val := by
  have ha := a.isLt
  have hb := b.isLt
  have hc := c.isLt
  have hd := d.isLt
  refine ⟨from_uint8x4_eq a b c d, ?_, ?_, ?_⟩
  · rw [from_uint8x4_eq]
    omega
  · simp [parseHeader.header_length, ifstream.openFile, ifstream.read, ifstream.good,
      HEADER_START_SIZE, HEADER_LENGTH_SIZE, uint8OfChar_charOfByte, from_uint8x4_eq]
  · simp [be32At]

/-- C14: on a value that fits in `size` bytes, `changeEndian` applied twice gives the
value back, its result has the bytes of the value in reverse order and fits in
`size` bytes, and on a 16-bit value `v` it gives `(v mod 256) * 256 + v div 256`. -/
theorem changeEndian_involution (size value : Nat) (h : value < 256 ^ size) :
    Conversion.changeEndian size (Conversion.changeEndian size value) = value ∧
      toBytes size (Conversion.changeEndian size value) = (toBytes size value).reverse ∧
      Conversion.changeEndian size value < 256 ^ size ∧
      (size = 2 → Conversion.changeEndian size value = (value % 256) * 256 + value / 256) := by
  have hl : (toBytes size value).reverse.length = size := by
    rw [List.length_reverse, toBytes_length]
  have hrev : toBytes size (Conversion.changeEndian size value) = (toBytes size value).reverse := by
    have h1 := toBytes_ofBytes (toBytes size value).reverse
    rw [hl] at h1
    exact h1
  refine ⟨?_, hrev, ?_, ?_⟩
  · have h2 : Conversion.changeEndian size (Conversion.changeEndian size value) =
        ofBytes (toBytes size (Conversion.changeEndian size value)).reverse := rfl
    rw [h2, hrev, List.reverse_reverse, ofBytes_toBytes size value h]
  · have h3 := ofBytes_lt (toBytes size value).reverse
    rw [hl] at h3
    exact h3
  · intro h2
    subst h2
    simp only [Conversion.changeEndian, toBytes, List.reverse_cons, List.reverse_nil,
      List.nil_append, List.cons_append, ofBytes]
    omega

/-- Witness of C14 on the 32-bit value `0x12345678`, whose reversal is `0x78563412`. -/
theorem changeEndian_involution_witness :
    0x12345678 < 256 ^ 4 ∧
      Conversion.changeEndian 4 (Conversion.changeEndian 4 0x12345678) = 0x12345678 ∧
      toBytes 4 (Conversion.changeEndian 4 0x12345678) = [0x12, 0x34, 0x56, 0x78] :=
  have h := changeEndian_involution 4 0x12345678 (by norm_num)
  ⟨by norm_num, h.1, h.2.1.trans (by decide)⟩

end MidiParser
